import Mathlib

/-!
# Verification of the Inkblot configuration / database bootstrap core

Shallow embedding of the repository's Rust sources:

* `src/crates/config/src/lib.rs` — `Config`, `InterfaceConfig`, their
  `Default` impls, and `load_config` (serde_jsonrc pretty serialization,
  file materialization, JSON parsing).
* `src/crates/database/src/lib.rs` — `Db::from_path` (empty-path guard,
  file creation, connection open, initialization script execution).
* `src/crates/appstate/src/lib.rs` — `AppState` (a tokio `Mutex` wrapper,
  it declares no operations of its own).

The filesystem is modelled explicitly: configuration-file paths are lists of
path components, file contents are character lists.  `load_config` panics on
every failure in the source (its doc comment lists the panics), which the
model renders as a `LoadResult.panic` outcome distinct from returning a
value.  Side effects are additionally reflected as an event trace so that
ordering claims ("creates the directories before writing") are statable.
-/

namespace Inkblot

/-! ## Configuration data model (src/crates/config/src/lib.rs, lines 8–54)

Rust `u16` is modelled as `Nat`; theorems that quantify over all `Config`
values carry the bound `port < 65536` that the Rust type enforces. -/

structure InterfaceConfig where
  interface : String
  port : Nat
  deriving DecidableEq, Repr

structure Config where
  network : InterfaceConfig
  database_path : String
  deriving DecidableEq, Repr

/-- `InterfaceConfig::default`: interface `"0.0.0.0"`, port `3250`. -/
def InterfaceConfig.default : InterfaceConfig :=
  { interface := "0.0.0.0", port := 3250 }

/-- `Config::default`: default network config and `database_path = "database.db"`. -/
def Config.default : Config :=
  { network := InterfaceConfig.default, database_path := "database.db" }

/-! ## JSON values

`serde_jsonrc` deserializes straight into `Config`; the model factors this
through an explicit JSON value tree (`parseJsonText` for the text syntax,
`configFromJson` for the derived `Deserialize` logic).  Numbers are modelled
as integers: the configuration schema only contains an integer field, and a
fractional literal makes the load fail in both the source and the model. -/

inductive Json where
  | null : Json
  | bool (b : Bool) : Json
  | num (n : Int) : Json
  | str (s : String) : Json
  | arr (elems : List Json) : Json
  | obj (fields : List (String × Json)) : Json

/-! ## Serialization (`serde_jsonrc::to_string_pretty`)

The serializer is specialized to `Config` (the only type the source
serializes): two-space pretty printing, fields in declaration order,
strings escaped exactly as `serde_json` escapes them (quote, backslash,
and the control characters below 0x20). -/

/-- Hexadecimal digit character (lowercase, as serde_json emits). -/
def hexDigit (n : Nat) : Char :=
  if n < 10 then Char.ofNat (48 + n) else Char.ofNat (87 + n)

/-- serde_json's escape of a single character inside a JSON string. -/
def escapeChar (c : Char) : List Char :=
  if c = '"' then ['\\', '"']
  else if c = '\\' then ['\\', '\\']
  else if c.toNat < 32 then
    if c = '\x08' then ['\\', 'b']
    else if c = '\t' then ['\\', 't']
    else if c = '\n' then ['\\', 'n']
    else if c = '\x0c' then ['\\', 'f']
    else if c = '\r' then ['\\', 'r']
    else ['\\', 'u', '0', '0', hexDigit (c.toNat / 16), hexDigit (c.toNat % 16)]
  else [c]

/-- Escape every character of a string body. -/
def escStr : List Char → List Char
  | [] => []
  | c :: t => escapeChar c ++ escStr t

/-- A JSON string literal: quote, escaped body, quote. -/
def renderString (s : String) : List Char :=
  '"' :: (escStr s.data ++ ['"'])

/-- Decimal digit character. -/
def digitChar (d : Nat) : Char := Char.ofNat (48 + d)

/-- Decimal rendering of a natural number, most significant digit first.
The first argument is fuel (any value above the number itself suffices). -/
def natToDecAux : Nat → Nat → List Char
  | 0, _ => []
  | fuel + 1, n =>
    if n < 10 then [digitChar n]
    else natToDecAux fuel (n / 10) ++ [digitChar (n % 10)]

/-- Decimal rendering of a natural number (as `itoa` prints a `u16`). -/
def natToDec (n : Nat) : List Char := natToDecAux (n + 1) n

/-- Indentation: `k` spaces. -/
def nSpaces (k : Nat) : List Char := List.replicate k ' '

/-- `serde_jsonrc::to_string_pretty` applied to a `Config` value, as
`load_config` produces it when materializing the default file:

    {
      "network": {
        "interface": "0.0.0.0",
        "port": 3250
      },
      "database_path": "database.db"
    }
-/
def renderConfig (c : Config) : List Char :=
  '{' :: '\n' ::
  (nSpaces 2 ++ (renderString "network" ++ (':' :: ' ' ::
  ('{' :: '\n' ::
  (nSpaces 4 ++ (renderString "interface" ++ (':' :: ' ' ::
  (renderString c.network.interface ++ (',' :: '\n' ::
  (nSpaces 4 ++ (renderString "port" ++ (':' :: ' ' ::
  (natToDec c.network.port ++ ('\n' ::
  (nSpaces 2 ++ ('}' :: ',' :: '\n' ::
  (nSpaces 2 ++ (renderString "database_path" ++ (':' :: ' ' ::
  (renderString c.database_path ++ ('\n' :: '}' :: [])))))))))))))))))))))

/-! ## Parsing (`serde_jsonrc::from_str`)

`serde_jsonrc` is serde_json extended with comment support: comments are
legal wherever whitespace is.  The model parses the text into a `Json`
value; `configFromJson` below models the derived `Deserialize` step.  All
parse functions are total; failure is `none` (the source turns every parse
failure into one `panic!`). -/

/-- JSON whitespace. -/
def isWsChar (c : Char) : Bool :=
  c = ' ' || c = '\t' || c = '\n' || c = '\r'

/-- Drop leading whitespace characters. -/
def skipSpaces (cs : List Char) : List Char := cs.dropWhile isWsChar

/-- Drop the body of a `//` line comment (the terminating newline, if any,
is left for the whitespace skipper). -/
def skipLine (cs : List Char) : List Char := cs.dropWhile (fun c => !(c = '\n'))

/-- Drop the body of a `/* ... */` block comment; `none` when the comment
is unterminated (a syntax error in serde_jsonrc). -/
def skipBlock : List Char → Option (List Char)
  | '*' :: '/' :: rest => some rest
  | _ :: rest => skipBlock rest
  | [] => none

/-- Skip whitespace and comments.  Fueled: each unit of fuel allows one
whitespace-then-comment round; any fuel above the input length suffices. -/
def skipWsF : Nat → List Char → Option (List Char)
  | 0, _ => none
  | fuel + 1, cs =>
    match skipSpaces cs with
    | '/' :: '/' :: rest => skipWsF fuel (skipLine rest)
    | '/' :: '*' :: rest =>
      match skipBlock rest with
      | some rest2 => skipWsF fuel rest2
      | none => none
    | other => some other

/-- Value of a hexadecimal digit character. -/
def hexVal (c : Char) : Option Nat :=
  if 48 ≤ c.toNat ∧ c.toNat ≤ 57 then some (c.toNat - 48)
  else if 97 ≤ c.toNat ∧ c.toNat ≤ 102 then some (c.toNat - 87)
  else if 65 ≤ c.toNat ∧ c.toNat ≤ 70 then some (c.toNat - 55)
  else none

/-- Unescape a single-character escape sequence (`\"`, `\\`, `\/`, `\b`,
`\f`, `\n`, `\r`, `\t`). -/
def unescapeChar (c : Char) : Option Char :=
  if c = '"' then some '"'
  else if c = '\\' then some '\\'
  else if c = '/' then some '/'
  else if c = 'b' then some '\x08'
  else if c = 'f' then some '\x0c'
  else if c = 'n' then some '\n'
  else if c = 'r' then some '\r'
  else if c = 't' then some '\t'
  else none

/-- Prepend a decoded character to a string-body parse result. -/
def mapCons (c : Char) : Option (List Char × List Char) → Option (List Char × List Char)
  | some (s, r) => some (c :: s, r)
  | none => none

/-- Lexer state inside a JSON string literal: ordinary position, position
after a backslash, or inside a `\uXXXX` escape with `k` hex digits read and
accumulated value `v`. -/
inductive StrState where
  | normal : StrState
  | esc : StrState
  | hex (k : Nat) (v : Nat) : StrState
  deriving DecidableEq

/-- Parse the body of a JSON string one character at a time (the opening
quote has been consumed); returns the decoded characters and the input
after the closing quote.  Unescaped control characters are rejected, as
serde does.  `\uXXXX` escapes are accepted for code points below the
surrogate range (serde additionally pairs surrogates, which the serializer
never emits). -/
def parseStrAux : StrState → List Char → Option (List Char × List Char)
  | _, [] => none
  | StrState.normal, c :: rest =>
    if c = '"' then some ([], rest)
    else if c = '\\' then parseStrAux StrState.esc rest
    else if c.toNat < 32 then none
    else mapCons c (parseStrAux StrState.normal rest)
  | StrState.esc, c :: rest =>
    if c = 'u' then parseStrAux (StrState.hex 0 0) rest
    else
      match unescapeChar c with
      | some uc => mapCons uc (parseStrAux StrState.normal rest)
      | none => none
  | StrState.hex k v, c :: rest =>
    match hexVal c with
    | some d =>
      if k = 3 then
        if v * 16 + d < 55296 then
          mapCons (Char.ofNat (v * 16 + d)) (parseStrAux StrState.normal rest)
        else none
      else parseStrAux (StrState.hex (k + 1) (v * 16 + d)) rest
    | none => none

/-- Parse the body of a JSON string (after the opening quote). -/
def parseStrBody (cs : List Char) : Option (List Char × List Char) :=
  parseStrAux StrState.normal cs

/-- Numeric value of a decimal digit character. -/
def digitVal (c : Char) : Nat := c.toNat - 48

/-- Parse a JSON integer literal (optional minus sign, digits, no leading
zeros).  A following `.`, `e` or `E` would start a float literal, which the
configuration schema cannot contain; the model rejects it. -/
def parseNumber : List Char → Option (Int × List Char)
  | [] => none
  | c :: t =>
    let cs1 := if c = '-' then t else c :: t
    let ds := cs1.takeWhile Char.isDigit
    let rest := cs1.dropWhile Char.isDigit
    if ds = [] then none
    else if ds.head? = some '0' ∧ ds.length ≠ 1 then none
    else if rest.head? = some '.' ∨ rest.head? = some 'e' ∨ rest.head? = some 'E' then
      none
    else
      let v : Nat := ds.foldl (fun a c2 => a * 10 + digitVal c2) 0
      some ((if c = '-' then -(v : Int) else (v : Int)), rest)

mutual

/-- Parse one JSON value (leading whitespace/comments included). -/
def parseVal : Nat → List Char → Option (Json × List Char)
  | 0, _ => none
  | fuel + 1, cs =>
    match skipWsF fuel cs with
    | none => none
    | some cs2 =>
      match cs2 with
      | [] => none
      | c :: rest =>
        if c = '{' then parseMembersStart fuel rest
        else if c = '[' then parseElemsStart fuel rest
        else if c = '"' then
          match parseStrBody rest with
          | some (s, r) => some (Json.str (String.mk s), r)
          | none => none
        else if c = 't' then
          match rest with
          | 'r' :: 'u' :: 'e' :: r => some (Json.bool true, r)
          | _ => none
        else if c = 'f' then
          match rest with
          | 'a' :: 'l' :: 's' :: 'e' :: r => some (Json.bool false, r)
          | _ => none
        else if c = 'n' then
          match rest with
          | 'u' :: 'l' :: 'l' :: r => some (Json.null, r)
          | _ => none
        else
          match parseNumber (c :: rest) with
          | some (n, r) => some (Json.num n, r)
          | none => none

/-- Parse the inside of an object (the `{` has been consumed). -/
def parseMembersStart : Nat → List Char → Option (Json × List Char)
  | 0, _ => none
  | fuel + 1, cs =>
    match skipWsF fuel cs with
    | none => none
    | some cs2 =>
      match cs2 with
      | '}' :: rest => some (Json.obj [], rest)
      | _ => parseMembers fuel cs2 []

/-- Parse a nonempty member list of an object. -/
def parseMembers : Nat → List Char → List (String × Json) → Option (Json × List Char)
  | 0, _, _ => none
  | fuel + 1, cs, acc =>
    match cs with
    | '"' :: rest =>
      match parseStrBody rest with
      | some (k, rest2) =>
        match skipWsF fuel rest2 with
        | some (':' :: rest3) =>
          match parseVal fuel rest3 with
          | some (v, rest4) =>
            match skipWsF fuel rest4 with
            | some (',' :: rest5) =>
              match skipWsF fuel rest5 with
              | some rest6 => parseMembers fuel rest6 (acc ++ [(String.mk k, v)])
              | none => none
            | some ('}' :: rest5) => some (Json.obj (acc ++ [(String.mk k, v)]), rest5)
            | _ => none
          | none => none
        | _ => none
      | none => none
    | _ => none

/-- Parse the inside of an array (the `[` has been consumed). -/
def parseElemsStart : Nat → List Char → Option (Json × List Char)
  | 0, _ => none
  | fuel + 1, cs =>
    match skipWsF fuel cs with
    | none => none
    | some cs2 =>
      match cs2 with
      | ']' :: rest => some (Json.arr [], rest)
      | _ => parseElems fuel cs2 []

/-- Parse a nonempty element list of an array. -/
def parseElems : Nat → List Char → List Json → Option (Json × List Char)
  | 0, _, _ => none
  | fuel + 1, cs, acc =>
    match parseVal fuel cs with
    | some (v, rest) =>
      match skipWsF fuel rest with
      | some (',' :: rest2) => parseElems fuel rest2 (acc ++ [v])
      | some (']' :: rest2) => some (Json.arr (acc ++ [v]), rest2)
      | _ => none
    | none => none

end

/-- `serde_jsonrc::from_str`'s syntactic layer: parse the whole input as a
single JSON value with only whitespace/comments around it. -/
def parseJsonText (cs : List Char) : Option Json :=
  match parseVal (cs.length + 16) cs with
  | some (v, rest) =>
    match skipWsF (rest.length + 1) rest with
    | some [] => some v
    | _ => none
  | none => none

/-! ## Deserialization into `Config` (derived `serde::Deserialize`)

A derived struct deserializer requires each declared field exactly once
(missing field error, duplicate field error) and ignores unknown fields. -/

/-- How many members of the object use the key `k`. -/
def countKey (fields : List (String × Json)) (k : String) : Nat :=
  (fields.filter (fun e => e.1 == k)).length

/-- The first member with key `k`. -/
def getField (fields : List (String × Json)) (k : String) : Option Json :=
  (fields.find? (fun e => e.1 == k)).map (fun e => e.2)

/-- Deserialize a JSON value as a Rust `String`. -/
def asStr : Json → Option String
  | Json.str s => some s
  | _ => none

/-- Deserialize a JSON value as a Rust `u16`. -/
def asU16 : Json → Option Nat
  | Json.num i => if 0 ≤ i ∧ i < 65536 then some i.toNat else none
  | _ => none

/-- Derived deserializer for `InterfaceConfig`. -/
def interfaceFromJson : Json → Option InterfaceConfig
  | Json.obj fields =>
    if countKey fields "interface" = 1 ∧ countKey fields "port" = 1 then
      (getField fields "interface").bind fun iv =>
      (getField fields "port").bind fun pv =>
      (asStr iv).bind fun i =>
      (asU16 pv).bind fun p =>
      some { interface := i, port := p }
    else none
  | _ => none

/-- Derived deserializer for `Config`. -/
def configFromJson : Json → Option Config
  | Json.obj fields =>
    if countKey fields "network" = 1 ∧ countKey fields "database_path" = 1 then
      (getField fields "network").bind fun nv =>
      (getField fields "database_path").bind fun dv =>
      (interfaceFromJson nv).bind fun net =>
      (asStr dv).bind fun db =>
      some { network := net, database_path := db }
    else none
  | _ => none

/-- `serde_jsonrc::from_str::<Config>`: parse the text, then deserialize. -/
def parseConfigText (cs : List Char) : Option Config :=
  (parseJsonText cs).bind configFromJson

/-- The JSON value a `Config` serializes to (derived `Serialize`, fields in
declaration order). -/
def configToJson (c : Config) : Json :=
  Json.obj [("network", Json.obj [("interface", Json.str c.network.interface),
      ("port", Json.num (c.network.port : Int))]),
    ("database_path", Json.str c.database_path)]

/-! ## Filesystem model for `load_config`

Paths are lists of components.  The filesystem records files (path ↦
content) and the set of existing directories; `Path::exists` is true when
either a file or a directory occupies the path.  The model has no I/O
faults: the failure modes it exhibits are the content-dependent ones
(reading something that is not a file, unparseable content). -/

structure FS where
  files : List (List String × List Char)
  dirs : List (List String)
  deriving DecidableEq

/-- Content of the file at `p`, if a file is there (`fs::read_to_string`). -/
def fileContent (fs : FS) (p : List String) : Option (List Char) :=
  (fs.files.find? (fun e => e.1 == p)).map (fun e => e.2)

/-- `Path::exists`: a file or directory occupies the path. -/
def pathExists (fs : FS) (p : List String) : Bool :=
  (fs.files.any (fun e => e.1 == p)) || fs.dirs.contains p

/-- Existence of a directory; the empty path (current directory) always
exists, as in `Path::new("").exists()`'s role for a bare file name's parent
(`fs::create_dir_all` is a no-op on it). -/
def dirExists (fs : FS) (p : List String) : Bool :=
  p.isEmpty || fs.dirs.contains p

/-- All nonempty prefixes of a path: the chain of directories
`fs::create_dir_all` has to ensure. -/
def ancestors (p : List String) : List (List String) :=
  (List.range p.length).map (fun k => p.take (k + 1))

/-- `fs::create_dir_all`: create the directory and every missing ancestor. -/
def createDirAll (fs : FS) (p : List String) : FS :=
  { fs with dirs := ancestors p ++ fs.dirs }

/-- `fs::write`: create or truncate-and-replace the file at `p`. -/
def writeFileAt (fs : FS) (p : List String) (content : List Char) : FS :=
  { fs with files := (p, content) :: fs.files.filter (fun e => !(e.1 == p)) }

/-- Coherence of the directory set, as every real filesystem guarantees: a
directory exists only if all of its ancestors do. -/
def DirClosed (fs : FS) : Prop :=
  ∀ d, fs.dirs.contains d = true → ∀ q ∈ ancestors d, fs.dirs.contains q = true

/-- The panic sites of `load_config` that the fault-free model can reach:
reading a path that exists but holds no file, and unparseable content. -/
inductive PanicKind where
  | readFailed : PanicKind
  | parseFailed : PanicKind
  deriving DecidableEq

/-- Outcome of `load_config`: a returned `Config`, or a `panic!` (process
termination — the source function has no error return type). -/
inductive LoadResult where
  | ok (c : Config) : LoadResult
  | panic (k : PanicKind) : LoadResult
  deriving DecidableEq

/-- Filesystem side effects of `load_config`, in execution order. -/
inductive LoadEvent where
  | createDirs : LoadEvent
  | wroteFile : LoadEvent
  | readFile : LoadEvent
  deriving DecidableEq

/-- `load_config` (src/crates/config/src/lib.rs, lines 91–136): if nothing
exists at `path`, create the parent directories when the parent does not
exist, serialize the default `Config`, write it, and return the default;
otherwise read the file and parse it, panicking on failure. -/
def load_config (fs : FS) (p : List String) : LoadResult × FS × List LoadEvent :=
  if pathExists fs p = false then
    let fs1ev :=
      if dirExists fs p.dropLast = false then
        (createDirAll fs p.dropLast, [LoadEvent.createDirs])
      else (fs, ([] : List LoadEvent))
    let json := renderConfig Config.default
    (LoadResult.ok Config.default, writeFileAt fs1ev.1 p json,
      fs1ev.2 ++ [LoadEvent.wroteFile])
  else
    match fileContent fs p with
    | none => (LoadResult.panic PanicKind.readFailed, fs, [LoadEvent.readFile])
    | some content =>
      match parseConfigText content with
      | some c => (LoadResult.ok c, fs, [LoadEvent.readFile])
      | none => (LoadResult.panic PanicKind.parseFailed, fs, [LoadEvent.readFile])

/-! ## Store bootstrap model (`src/crates/database/src/lib.rs`)

A database file is its visible schema (the list of tables SQLite would
report).  The store filesystem maps paths (plain strings, as in the
source's `&str` parameter) to database files.  An empty file created by
`File::create` is a fresh, schema-less database, which is how SQLite opens
a zero-length file. -/

structure Table where
  name : String
  cols : List String
  deriving DecidableEq

structure DbFile where
  schema : List Table
  deriving DecidableEq

/-- `Db`: wraps one open connection; its visible state is the schema of the
database it is connected to. -/
structure Db where
  conn : DbFile
  deriving DecidableEq

structure DbFS where
  files : List (String × DbFile)
  deriving DecidableEq

/-- The typed failure of `Db::from_path` reachable in the fault-free model:
the empty-path precondition violation (`"Path cannot be empty"`). -/
inductive DbError where
  | preconditionError : DbError
  deriving DecidableEq

/-- Side effects of `Db::from_path`, in execution order. -/
inductive DbEvent where
  | fileCreate : DbEvent
  | connOpen : DbEvent
  | execScript : DbEvent
  deriving DecidableEq

def dbPathExists (fs : DbFS) (p : String) : Bool :=
  fs.files.any (fun e => e.1 == p)

def dbFileAt (fs : DbFS) (p : String) : DbFile :=
  ((fs.files.find? (fun e => e.1 == p)).map (fun e => e.2)).getD { schema := [] }

def dbWrite (fs : DbFS) (p : String) (d : DbFile) : DbFS :=
  { files := (p, d) :: fs.files.filter (fun e => !(e.1 == p)) }

/-- The `users` table declared by the initialization script. -/
def usersTable : Table :=
  { name := "users", cols := ["username", "password_hash", "salt", "permissions"] }

/-- Modelled from the spec: the initialization script `/sql/init_db.sql` is
included at compile time (`include_str!`) but is not part of the sources
under `src/`.  Per the spec it is a declarative, idempotent
(`CREATE TABLE IF NOT EXISTS`) schema script declaring at minimum the
`users` table with columns `username`, `password_hash`, `salt`,
`permissions`.  `CREATE TABLE IF NOT EXISTS` adds the declared table when
no table of that name exists and otherwise leaves the schema unchanged. -/
def runInitScript (d : DbFile) : DbFile :=
  if d.schema.any (fun t => t.name == "users") then d
  else { schema := d.schema ++ [usersTable] }

/-- `Db::from_path` (src/crates/database/src/lib.rs, lines 46–61): reject
the empty path, create an empty file when none exists, open the connection,
execute the initialization script, and return the handle. -/
def Db.from_path (fs : DbFS) (path : String) :
    Except DbError Db × DbFS × List DbEvent :=
  if path = "" then (Except.error DbError.preconditionError, fs, [])
  else
    let fs1ev :=
      if dbPathExists fs path = false then
        (dbWrite fs path { schema := [] }, [DbEvent.fileCreate])
      else (fs, ([] : List DbEvent))
    let d0 := dbFileAt fs1ev.1 path
    let d1 := runInitScript d0
    (Except.ok { conn := d1 }, dbWrite fs1ev.1 path d1,
      fs1ev.2 ++ [DbEvent.connOpen, DbEvent.execScript])

/-! ## Concrete fixtures used by witnesses and counterexamples -/

/-- The spec's malformed-file example: a `port` field holding the string
`"not-a-number"`. -/
def badContent : List Char :=
  ("\x7b\"network\": \x7b\"interface\": \"0.0.0.0\", \"port\": \"not-a-number\"\x7d\x7d").data

/-- A filesystem whose configuration file at `config.json` holds
`badContent`. -/
def fsBad : FS := { files := [(["config.json"], badContent)], dirs := [] }

/-- A store filesystem with a pre-existing table named `users` whose
columns diverge from the initialization script's declaration. -/
def divergentDbFS : DbFS :=
  { files := [("d.db", { schema := [{ name := "users", cols := ["other"] }] })] }

/-- Valid JSON that lacks the required `database_path` field. -/
def missingContent : List Char :=
  ("\x7b\"network\": \x7b\"interface\": \"a\", \"port\": 1\x7d\x7d").data

/-- A filesystem whose configuration file holds `missingContent`. -/
def fsMissing : FS := { files := [(["config.json"], missingContent)], dirs := [] }

/-! ## Round-trip correctness of the serializer and parser

The development below proves claim-independent helper lemmas: decimal
rendering parses back to the same number, escaped strings lex back to the
same characters, and the pretty-printed rendering of any `Config` parses
back to an equal value. -/

theorem digit_facts : ∀ d, d < 10 →
    (digitChar d).isDigit = true ∧ digitVal (digitChar d) = d ∧
    (digitChar d) ≠ '-' ∧ (digitChar d) ≠ '.' ∧ (digitChar d) ≠ 'e' ∧ (digitChar d) ≠ 'E' := by
  decide

theorem digitChar_eq_zero_iff : ∀ d, d < 10 → (digitChar d = '0' ↔ d = 0) := by
  decide

theorem natToDecAux_digits : ∀ fuel n, n < fuel →
    ∀ c ∈ natToDecAux fuel n, c.isDigit = true := by
  intro fuel
  induction fuel with
  | zero => intro n h; omega
  | succ f ih =>
    intro n h c hc
    by_cases h10 : n < 10
    · simp [natToDecAux, h10] at hc
      subst hc
      exact (digit_facts n h10).1
    · simp [natToDecAux, h10] at hc
      rcases hc with hc | hc
      · exact ih (n / 10) (by omega) c hc
      · subst hc
        exact (digit_facts (n % 10) (by omega)).1

theorem natToDecAux_ne_nil : ∀ fuel n, n < fuel → natToDecAux fuel n ≠ [] := by
  intro fuel
  induction fuel with
  | zero => intro n h; omega
  | succ f ih =>
    intro n h
    by_cases h10 : n < 10
    · simp [natToDecAux, h10]
    · simp [natToDecAux, h10]

theorem natToDecAux_foldl : ∀ fuel n a, n < fuel →
    (natToDecAux fuel n).foldl (fun acc c => acc * 10 + digitVal c) a
      = a * 10 ^ (natToDecAux fuel n).length + n := by
  intro fuel
  induction fuel with
  | zero => intro n a h; omega
  | succ f ih =>
    intro n a h
    by_cases h10 : n < 10
    · simp [natToDecAux, h10, (digit_facts n h10).2.1]
    · have hdiv : n / 10 < f := by
        have := Nat.div_lt_self (by omega : 0 < n) (by omega : 1 < 10)
        omega
      simp only [natToDecAux, if_neg h10, List.foldl_append, List.foldl_cons,
        List.foldl_nil, List.length_append, List.length_cons, List.length_nil]
      rw [ih (n / 10) a hdiv]
      rw [(digit_facts (n % 10) (by omega)).2.1]
      have hmod := Nat.div_add_mod n 10
      have hpow : 10 ^ ((natToDecAux f (n / 10)).length + (0 + 1))
          = 10 ^ (natToDecAux f (n / 10)).length * 10 := by
        rw [pow_succ]
      ring_nf
      omega

theorem natToDecAux_head_ne_zero : ∀ fuel n, 0 < n → n < fuel →
    ∀ c, (natToDecAux fuel n).head? = some c → c ≠ '0' := by
  intro fuel
  induction fuel with
  | zero => intro n h0 h; omega
  | succ f ih =>
    intro n h0 h c hc
    by_cases h10 : n < 10
    · simp [natToDecAux, h10] at hc
      subst hc
      intro hz
      have := (digitChar_eq_zero_iff n h10).mp hz
      omega
    · have hne := natToDecAux_ne_nil f (n / 10) (by
        have := Nat.div_lt_self (by omega : 0 < n) (by omega : 1 < 10)
        omega)
      simp only [natToDecAux, if_neg h10] at hc
      rw [List.head?_append] at hc
      match hh : (natToDecAux f (n / 10)).head? with
      | some c' =>
        rw [hh] at hc
        simp at hc
        subst hc
        exact ih (n / 10) (by omega) (by
          have := Nat.div_lt_self (by omega : 0 < n) (by omega : 1 < 10)
          omega) c' hh
      | none =>
        exact absurd (List.head?_eq_none_iff.mp hh) hne

end Inkblot

namespace Inkblot

theorem takeWhile_app_all {p : Char → Bool} : ∀ (xs rest : List Char),
    (∀ c ∈ xs, p c = true) → (∀ c, rest.head? = some c → p c = false) →
    (xs ++ rest).takeWhile p = xs := by
  intro xs
  induction xs with
  | nil =>
    intro rest _ hrest
    cases rest with
    | nil => rfl
    | cons r t =>
      simp [List.takeWhile_cons, hrest r rfl]
  | cons x t ih =>
    intro rest hall hrest
    rw [List.cons_append, List.takeWhile_cons, if_pos (hall x (by simp))]
    rw [ih rest (fun c hc => hall c (by simp [hc])) hrest]

theorem dropWhile_app_all {p : Char → Bool} : ∀ (xs rest : List Char),
    (∀ c ∈ xs, p c = true) → (∀ c, rest.head? = some c → p c = false) →
    (xs ++ rest).dropWhile p = rest := by
  intro xs
  induction xs with
  | nil =>
    intro rest _ hrest
    cases rest with
    | nil => rfl
    | cons r t =>
      simp [List.dropWhile_cons, hrest r rfl]
  | cons x t ih =>
    intro rest hall hrest
    rw [List.cons_append, List.dropWhile_cons, if_pos (hall x (by simp))]
    exact ih rest (fun c hc => hall c (by simp [hc])) hrest

/-- The decimal rendering of `n` parses back to `n` when the following
character cannot extend a number literal. -/
theorem parseNumber_natToDec (n : Nat) (rest : List Char)
    (h : ∀ c, rest.head? = some c →
      (c.isDigit = false ∧ c ≠ '.' ∧ c ≠ 'e' ∧ c ≠ 'E')) :
    parseNumber (natToDec n ++ rest) = some ((n : Int), rest) := by
  have hdig : ∀ c ∈ natToDec n, c.isDigit = true :=
    natToDecAux_digits (n + 1) n (by omega)
  have hne : natToDec n ≠ [] := natToDecAux_ne_nil (n + 1) n (by omega)
  match hcons : natToDec n with
  | [] => exact absurd hcons hne
  | d :: ds =>
    rw [hcons] at hdig
    have hd : d.isDigit = true := hdig d (by simp)
    have hdm : d ≠ '-' := by
      intro he
      rw [he] at hd
      exact absurd hd (by decide)
    simp only [List.cons_append, parseNumber]
    rw [if_neg hdm]
    have htake : ((d :: ds) ++ rest).takeWhile Char.isDigit = d :: ds :=
      takeWhile_app_all (d :: ds) rest hdig (fun c hc => (h c hc).1)
    have hdrop : ((d :: ds) ++ rest).dropWhile Char.isDigit = rest :=
      dropWhile_app_all (d :: ds) rest hdig (fun c hc => (h c hc).1)
    simp only [List.cons_append] at htake hdrop
    rw [htake, hdrop]
    rw [if_neg (by simp)]
    have hlead : ¬((d :: ds).head? = some '0' ∧ (d :: ds).length ≠ 1) := by
      rintro ⟨hz, hlen⟩
      simp only [List.head?_cons, Option.some.injEq] at hz
      subst hz
      by_cases hn0 : n = 0
      · subst hn0
        simp [natToDec, natToDecAux, digitChar] at hcons
        rw [hcons] at hlen
        simp at hlen
      · exact natToDecAux_head_ne_zero (n + 1) n (by omega) (by omega) '0'
          (by rw [natToDec] at hcons; rw [hcons]; rfl) rfl
    rw [if_neg hlead]
    have hfloat : ¬(rest.head? = some '.' ∨ rest.head? = some 'e' ∨ rest.head? = some 'E') := by
      rintro (hc | hc | hc)
      · exact (h _ hc).2.1 rfl
      · exact (h _ hc).2.2.1 rfl
      · exact (h _ hc).2.2.2 rfl
    rw [if_neg hfloat]
    have hval : (d :: ds).foldl (fun a c => a * 10 + digitVal c) 0 = n := by
      rw [← hcons]
      rw [natToDec, natToDecAux_foldl (n + 1) n 0 (by omega)]
      simp
    rw [hval]
    rw [if_neg hdm]

theorem hexVal_hexDigit : ∀ m, m < 16 → hexVal (hexDigit m) = some m := by
  decide

theorem parseStrAux_quote (rest : List Char) :
    parseStrAux StrState.normal ('"' :: rest) = some ([], rest) := by
  simp [parseStrAux]

theorem parseStrAux_backslash (rest : List Char) :
    parseStrAux StrState.normal ('\\' :: rest) = parseStrAux StrState.esc rest := by
  simp [parseStrAux]

theorem parseStrAux_plain (c : Char) (rest : List Char)
    (h1 : ¬c = '"') (h2 : ¬c = '\\') (h3 : ¬c.toNat < 32) :
    parseStrAux StrState.normal (c :: rest) = mapCons c (parseStrAux StrState.normal rest) := by
  rw [parseStrAux]
  rw [if_neg h1, if_neg h2, if_neg h3]

theorem parseStrAux_esc_u (rest : List Char) :
    parseStrAux StrState.esc ('u' :: rest) = parseStrAux (StrState.hex 0 0) rest := by
  simp [parseStrAux]

theorem parseStrAux_esc_char (c uc : Char) (rest : List Char)
    (h : ¬c = 'u') (hu : unescapeChar c = some uc) :
    parseStrAux StrState.esc (c :: rest) = mapCons uc (parseStrAux StrState.normal rest) := by
  rw [parseStrAux]
  rw [if_neg h, hu]

theorem parseStrAux_hex0 (v : Nat) (c : Char) (d : Nat) (rest : List Char)
    (hd : hexVal c = some d) :
    parseStrAux (StrState.hex 0 v) (c :: rest)
      = parseStrAux (StrState.hex 1 (v * 16 + d)) rest := by
  rw [parseStrAux, hd]
  simp

theorem parseStrAux_hex1 (v : Nat) (c : Char) (d : Nat) (rest : List Char)
    (hd : hexVal c = some d) :
    parseStrAux (StrState.hex 1 v) (c :: rest)
      = parseStrAux (StrState.hex 2 (v * 16 + d)) rest := by
  rw [parseStrAux, hd]
  simp

theorem parseStrAux_hex2 (v : Nat) (c : Char) (d : Nat) (rest : List Char)
    (hd : hexVal c = some d) :
    parseStrAux (StrState.hex 2 v) (c :: rest)
      = parseStrAux (StrState.hex 3 (v * 16 + d)) rest := by
  rw [parseStrAux, hd]
  simp

theorem parseStrAux_hex3 (v : Nat) (c : Char) (d : Nat) (rest : List Char)
    (hd : hexVal c = some d) (hlt : v * 16 + d < 55296) :
    parseStrAux (StrState.hex 3 v) (c :: rest)
      = mapCons (Char.ofNat (v * 16 + d)) (parseStrAux StrState.normal rest) := by
  rw [parseStrAux, hd]
  simp [hlt]

/-- serde's string escaping followed by the string-body lexer is the
identity on the string's characters. -/
theorem parseStrBody_escStr : ∀ (s rest : List Char),
    parseStrAux StrState.normal (escStr s ++ '"' :: rest) = some (s, rest) := by
  intro s
  induction s with
  | nil =>
    intro rest
    simp [escStr, parseStrAux_quote]
  | cons c t ih =>
    intro rest
    by_cases hq : c = '"'
    · subst hq
      rw [escStr, show escapeChar '"' = ['\\', '"'] from by decide]
      simp only [List.cons_append, List.nil_append]
      rw [parseStrAux_backslash,
        parseStrAux_esc_char '"' '"' _ (by decide) (by decide), ih, mapCons]
    · by_cases hb : c = '\\'
      · subst hb
        rw [escStr, show escapeChar '\\' = ['\\', '\\'] from by decide]
        simp only [List.cons_append, List.nil_append]
        rw [parseStrAux_backslash,
          parseStrAux_esc_char '\\' '\\' _ (by decide) (by decide), ih, mapCons]
      · by_cases hc32 : c.toNat < 32
        · by_cases h8 : c = '\x08'
          · subst h8
            rw [escStr, show escapeChar '\x08' = ['\\', 'b'] from by decide]
            simp only [List.cons_append, List.nil_append]
            rw [parseStrAux_backslash,
              parseStrAux_esc_char 'b' '\x08' _ (by decide) (by decide), ih, mapCons]
          · by_cases h9 : c = '\t'
            · subst h9
              rw [escStr, show escapeChar '\t' = ['\\', 't'] from by decide]
              simp only [List.cons_append, List.nil_append]
              rw [parseStrAux_backslash,
                parseStrAux_esc_char 't' '\t' _ (by decide) (by decide), ih, mapCons]
            · by_cases h10 : c = '\n'
              · subst h10
                rw [escStr, show escapeChar '\n' = ['\\', 'n'] from by decide]
                simp only [List.cons_append, List.nil_append]
                rw [parseStrAux_backslash,
                  parseStrAux_esc_char 'n' '\n' _ (by decide) (by decide), ih, mapCons]
              · by_cases h12 : c = '\x0c'
                · subst h12
                  rw [escStr, show escapeChar '\x0c' = ['\\', 'f'] from by decide]
                  simp only [List.cons_append, List.nil_append]
                  rw [parseStrAux_backslash,
                    parseStrAux_esc_char 'f' '\x0c' _ (by decide) (by decide), ih, mapCons]
                · by_cases h13 : c = '\r'
                  · subst h13
                    rw [escStr, show escapeChar '\r' = ['\\', 'r'] from by decide]
                    simp only [List.cons_append, List.nil_append]
                    rw [parseStrAux_backslash,
                      parseStrAux_esc_char 'r' '\r' _ (by decide) (by decide), ih, mapCons]
                  · rw [escStr]
                    rw [show escapeChar c
                        = ['\\', 'u', '0', '0', hexDigit (c.toNat / 16), hexDigit (c.toNat % 16)] from by
                      rw [escapeChar, if_neg hq, if_neg hb, if_pos hc32,
                        if_neg h8, if_neg h9, if_neg h10, if_neg h12, if_neg h13]]
                    simp only [List.cons_append, List.nil_append]
                    rw [parseStrAux_backslash, parseStrAux_esc_u]
                    rw [parseStrAux_hex0 0 '0' 0 _ (by decide)]
                    rw [parseStrAux_hex1 (0 * 16 + 0) '0' 0 _ (by decide)]
                    rw [parseStrAux_hex2 ((0 * 16 + 0) * 16 + 0) (hexDigit (c.toNat / 16))
                      (c.toNat / 16) _ (hexVal_hexDigit (c.toNat / 16) (by omega))]
                    rw [parseStrAux_hex3 (((0 * 16 + 0) * 16 + 0) * 16 + c.toNat / 16)
                      (hexDigit (c.toNat % 16)) (c.toNat % 16) _
                      (hexVal_hexDigit (c.toNat % 16) (by omega))
                      (by have := Nat.div_add_mod c.toNat 16; omega)]
                    rw [show (((0 * 16 + 0) * 16 + 0) * 16 + c.toNat / 16) * 16 + c.toNat % 16
                        = c.toNat from by
                      have := Nat.div_add_mod c.toNat 16
                      omega]
                    rw [ih rest, Char.ofNat_toNat, mapCons]
        · rw [escStr, show escapeChar c = [c] from by
            rw [escapeChar, if_neg hq, if_neg hb, if_neg hc32]]
          simp only [List.cons_append, List.nil_append]
          rw [parseStrAux_plain c _ hq hb hc32, ih rest, mapCons]

theorem skipSpaces_ws (c : Char) (cs : List Char) (h : isWsChar c = true) :
    skipSpaces (c :: cs) = skipSpaces cs := by
  simp [skipSpaces, List.dropWhile_cons, h]

theorem skipSpaces_stop (c : Char) (cs : List Char) (h : isWsChar c = false) :
    skipSpaces (c :: cs) = c :: cs := by
  simp [skipSpaces, List.dropWhile_cons, h]

theorem skipSpaces_nSpaces (k : Nat) (cs : List Char) :
    skipSpaces (nSpaces k ++ cs) = skipSpaces cs := by
  induction k with
  | zero => rfl
  | succ m ih =>
    rw [show nSpaces (m + 1) = ' ' :: nSpaces m from by
      simp [nSpaces, List.replicate_succ]]
    rw [List.cons_append, skipSpaces_ws ' ' _ (by decide), ih]

/-- Whitespace skipping succeeds in one step when no comment follows the
spaces. -/
theorem skipWsF_clean (fuel : Nat) (cs ds : List Char) (h : skipSpaces cs = ds)
    (hd : ∀ c, ds.head? = some c → ¬c = '/') :
    skipWsF (fuel + 1) cs = some ds := by
  rw [skipWsF, h]
  match ds, hd with
  | [], _ => rfl
  | d :: t, hd =>
    have hslash : ¬d = '/' := hd d rfl
    rcases t with _ | ⟨e, t2⟩
    · simp [hslash]
    · simp [hslash]

theorem parseVal_obj (fuel : Nat) (cs ds : List Char)
    (hws : skipWsF fuel cs = some ('{' :: ds)) :
    parseVal (fuel + 1) cs = parseMembersStart fuel ds := by
  rw [parseVal, hws]
  simp

theorem parseVal_str (fuel : Nat) (cs ds : List Char) (s r : List Char)
    (hws : skipWsF fuel cs = some ('"' :: ds))
    (hstr : parseStrAux StrState.normal ds = some (s, r)) :
    parseVal (fuel + 1) cs = some (Json.str (String.mk s), r) := by
  rw [parseVal, hws]
  simp [parseStrBody, hstr]

theorem parseVal_num (fuel : Nat) (cs : List Char) (c : Char) (ds : List Char)
    (n : Int) (r : List Char)
    (hws : skipWsF fuel cs = some (c :: ds))
    (h1 : ¬c = '{') (h2 : ¬c = '[') (h3 : ¬c = '"')
    (h4 : ¬c = 't') (h5 : ¬c = 'f') (h6 : ¬c = 'n')
    (hnum : parseNumber (c :: ds) = some (n, r)) :
    parseVal (fuel + 1) cs = some (Json.num n, r) := by
  rw [parseVal, hws]
  simp only []
  rw [if_neg h1, if_neg h2, if_neg h3, if_neg h4, if_neg h5, if_neg h6, hnum]

theorem parseMembersStart_mem (fuel : Nat) (cs ds : List Char)
    (hws : skipWsF fuel cs = some ('"' :: ds)) :
    parseMembersStart (fuel + 1) cs = parseMembers fuel ('"' :: ds) [] := by
  rw [parseMembersStart, hws]
  simp

theorem parseMembers_last (fuel : Nat) (ds k rest2 rest3 rest4 rest5 : List Char)
    (v : Json) (acc : List (String × Json))
    (hkey : parseStrBody ds = some (k, rest2))
    (hcolon : skipWsF fuel rest2 = some (':' :: rest3))
    (hval : parseVal fuel rest3 = some (v, rest4))
    (hend : skipWsF fuel rest4 = some ('}' :: rest5)) :
    parseMembers (fuel + 1) ('"' :: ds) acc
      = some (Json.obj (acc ++ [(String.mk k, v)]), rest5) := by
  rw [parseMembers, hkey]
  simp only [hcolon, hval, hend]

theorem parseMembers_more (fuel : Nat) (ds k rest2 rest3 rest4 rest5 rest6 : List Char)
    (v : Json) (acc : List (String × Json))
    (hkey : parseStrBody ds = some (k, rest2))
    (hcolon : skipWsF fuel rest2 = some (':' :: rest3))
    (hval : parseVal fuel rest3 = some (v, rest4))
    (hcomma : skipWsF fuel rest4 = some (',' :: rest5))
    (hnext : skipWsF fuel rest5 = some rest6) :
    parseMembers (fuel + 1) ('"' :: ds) acc
      = parseMembers fuel rest6 (acc ++ [(String.mk k, v)]) := by
  rw [parseMembers, hkey]
  simp only [hcolon, hval, hcomma, hnext]

theorem head_ne_slash {c0 : Char} (h : ¬c0 = '/') (t : List Char) :
    ∀ c, (c0 :: t).head? = some c → ¬c = '/' := by
  intro c hc
  simp only [List.head?_cons, Option.some.injEq] at hc
  subst hc
  exact h

theorem digit_not_special (c : Char) (h : c.isDigit = true) :
    isWsChar c = false ∧ ¬c = '{' ∧ ¬c = '[' ∧ ¬c = '"' ∧ ¬c = 't'
      ∧ ¬c = 'f' ∧ ¬c = 'n' ∧ ¬c = '/' := by
  refine ⟨?_, ?_, ?_, ?_, ?_, ?_, ?_, ?_⟩
  · cases hiw : isWsChar c
    · rfl
    · exfalso
      simp only [isWsChar, Bool.or_eq_true, decide_eq_true_eq] at hiw
      rcases hiw with ((h1 | h1) | h1) | h1 <;> (subst h1; exact absurd h (by decide))
  all_goals (intro he; subst he; exact absurd h (by decide))

theorem renderString_append (s : String) (z : List Char) :
    renderString s ++ z = '"' :: (escStr s.data ++ ('"' :: z)) := by
  simp [renderString]

/-- Parsing the pretty-printed rendering of a `Config` yields exactly its
JSON value, consuming the whole input (any fuel at least 12 suffices). -/
theorem parse_renderConfig (c : Config) (f : Nat) :
    parseVal (f + 12) (renderConfig c) = some (configToJson c, []) := by
  obtain ⟨⟨s1, n⟩, s2⟩ := c
  rw [renderConfig]
  dsimp only
  rw [renderString_append, renderString_append, renderString_append,
    renderString_append, renderString_append, renderString_append]
  obtain ⟨d, ds2, hnd⟩ : ∃ d ds2, natToDec n = d :: ds2 := by
    cases hn : natToDec n with
    | nil => exact absurd hn (natToDecAux_ne_nil (n + 1) n (by omega))
    | cons d ds2 => exact ⟨d, ds2, rfl⟩
  have hddig : d.isDigit = true := by
    have := natToDecAux_digits (n + 1) n (by omega)
    rw [natToDec] at hnd
    rw [hnd] at this
    exact this d (by simp)
  have hspec := digit_not_special d hddig
  rw [hnd, List.cons_append]
  -- names for the text tails
  set Y14 : List Char := '\n' :: '}' :: [] with hY14
  set Y13 : List Char := '"' :: (escStr s2.data ++ ('"' :: Y14)) with hY13
  set Y12b : List Char := escStr "database_path".data ++ ('"' :: ':' :: ' ' :: Y13) with hY12b
  set Y11 : List Char := ',' :: '\n' :: (nSpaces 2 ++ ('"' :: Y12b)) with hY11
  set Y10 : List Char := '\n' :: (nSpaces 2 ++ ('}' :: Y11)) with hY10
  set Y9 : List Char := d :: (ds2 ++ Y10) with hY9
  set Y8b : List Char := escStr "port".data ++ ('"' :: ':' :: ' ' :: Y9) with hY8b
  set Y7 : List Char := ',' :: '\n' :: (nSpaces 4 ++ ('"' :: Y8b)) with hY7
  set Y6 : List Char := '"' :: (escStr s1.data ++ ('"' :: Y7)) with hY6
  set Y5b : List Char := escStr "interface".data ++ ('"' :: ':' :: ' ' :: Y6) with hY5b
  set Y4 : List Char := '\n' :: (nSpaces 4 ++ ('"' :: Y5b)) with hY4
  set Y3 : List Char := '{' :: Y4 with hY3
  set Y2b : List Char := escStr "network".data ++ ('"' :: ':' :: ' ' :: Y3) with hY2b
  set Y1 : List Char := '\n' :: (nSpaces 2 ++ ('"' :: Y2b)) with hY1
  -- top-level object
  have hws0 : skipWsF (f + 11) ('{' :: Y1) = some ('{' :: Y1) :=
    skipWsF_clean (f + 10) _ _ (skipSpaces_stop '{' _ (by decide)) (head_ne_slash (by decide) _)
  have h1 : parseVal (f + 12) ('{' :: Y1) = parseMembersStart (f + 11) Y1 :=
    parseVal_obj (f + 11) _ _ hws0
  have hws1 : skipWsF (f + 10) Y1 = some ('"' :: Y2b) :=
    skipWsF_clean (f + 9) _ _
      (by rw [hY1, skipSpaces_ws '\n' _ (by decide), skipSpaces_nSpaces,
        skipSpaces_stop '"' _ (by decide)])
      (head_ne_slash (by decide) _)
  have h2 : parseMembersStart (f + 11) Y1 = parseMembers (f + 10) ('"' :: Y2b) [] :=
    parseMembersStart_mem (f + 10) _ _ hws1
  -- the "network" member
  have hkey3 : parseStrBody Y2b = some ("network".data, ':' :: ' ' :: Y3) := by
    rw [hY2b]
    exact parseStrBody_escStr _ _
  have hcolon3 : skipWsF (f + 9) (':' :: ' ' :: Y3) = some (':' :: ' ' :: Y3) :=
    skipWsF_clean (f + 8) _ _ (skipSpaces_stop ':' _ (by decide)) (head_ne_slash (by decide) _)
  -- the inner object: parse of the "network" value
  have hwsI0 : skipWsF (f + 8) (' ' :: Y3) = some ('{' :: Y4) :=
    skipWsF_clean (f + 7) _ _
      (by rw [skipSpaces_ws ' ' _ (by decide), hY3, skipSpaces_stop '{' _ (by decide)])
      (head_ne_slash (by decide) _)
  have hI1 : parseVal (f + 9) (' ' :: Y3) = parseMembersStart (f + 8) Y4 :=
    parseVal_obj (f + 8) _ _ hwsI0
  have hwsI1 : skipWsF (f + 7) Y4 = some ('"' :: Y5b) :=
    skipWsF_clean (f + 6) _ _
      (by rw [hY4, skipSpaces_ws '\n' _ (by decide), skipSpaces_nSpaces,
        skipSpaces_stop '"' _ (by decide)])
      (head_ne_slash (by decide) _)
  have hI2 : parseMembersStart (f + 8) Y4 = parseMembers (f + 7) ('"' :: Y5b) [] :=
    parseMembersStart_mem (f + 7) _ _ hwsI1
  have hkeyI : parseStrBody Y5b = some ("interface".data, ':' :: ' ' :: Y6) := by
    rw [hY5b]
    exact parseStrBody_escStr _ _
  have hcolonI : skipWsF (f + 6) (':' :: ' ' :: Y6) = some (':' :: ' ' :: Y6) :=
    skipWsF_clean (f + 5) _ _ (skipSpaces_stop ':' _ (by decide)) (head_ne_slash (by decide) _)
  have hwsIv : skipWsF (f + 5) (' ' :: Y6) = some ('"' :: (escStr s1.data ++ ('"' :: Y7))) :=
    skipWsF_clean (f + 4) _ _
      (by rw [skipSpaces_ws ' ' _ (by decide), hY6, skipSpaces_stop '"' _ (by decide)])
      (head_ne_slash (by decide) _)
  have hvalI : parseVal (f + 6) (' ' :: Y6) = some (Json.str s1, Y7) :=
    parseVal_str (f + 5) _ _ _ _ hwsIv (parseStrBody_escStr _ _)
  have hcommaI : skipWsF (f + 6) Y7 = some (',' :: ('\n' :: (nSpaces 4 ++ ('"' :: Y8b)))) :=
    skipWsF_clean (f + 5) _ _
      (by rw [hY7, skipSpaces_stop ',' _ (by decide)])
      (head_ne_slash (by decide) _)
  have hnextI : skipWsF (f + 6) ('\n' :: (nSpaces 4 ++ ('"' :: Y8b))) = some ('"' :: Y8b) :=
    skipWsF_clean (f + 5) _ _
      (by rw [skipSpaces_ws '\n' _ (by decide), skipSpaces_nSpaces,
        skipSpaces_stop '"' _ (by decide)])
      (head_ne_slash (by decide) _)
  have hI3 : parseMembers (f + 7) ('"' :: Y5b) []
      = parseMembers (f + 6) ('"' :: Y8b) [("interface", Json.str s1)] :=
    parseMembers_more (f + 6) _ _ _ _ _ _ _ _ _ hkeyI hcolonI hvalI hcommaI hnextI
  -- the "port" member
  have hkeyP : parseStrBody Y8b = some ("port".data, ':' :: ' ' :: Y9) := by
    rw [hY8b]
    exact parseStrBody_escStr _ _
  have hcolonP : skipWsF (f + 5) (':' :: ' ' :: Y9) = some (':' :: ' ' :: Y9) :=
    skipWsF_clean (f + 4) _ _ (skipSpaces_stop ':' _ (by decide)) (head_ne_slash (by decide) _)
  have hwsP : skipWsF (f + 4) (' ' :: Y9) = some (d :: (ds2 ++ Y10)) :=
    skipWsF_clean (f + 3) _ _
      (by rw [skipSpaces_ws ' ' _ (by decide), hY9, skipSpaces_stop d _ hspec.1])
      (head_ne_slash hspec.2.2.2.2.2.2.2 _)
  have hnum : parseNumber (d :: (ds2 ++ Y10)) = some ((n : Int), Y10) := by
    have hpn := parseNumber_natToDec n Y10 ?hconds
    case hconds =>
      intro ch hch
      rw [hY10] at hch
      simp only [List.head?_cons, Option.some.injEq] at hch
      subst hch
      exact ⟨by decide, by decide, by decide, by decide⟩
    rw [hnd, List.cons_append] at hpn
    exact hpn
  have hvalP : parseVal (f + 5) (' ' :: Y9) = some (Json.num (n : Int), Y10) :=
    parseVal_num (f + 4) _ _ _ _ _ hwsP hspec.2.1 hspec.2.2.1 hspec.2.2.2.1
      hspec.2.2.2.2.1 hspec.2.2.2.2.2.1 hspec.2.2.2.2.2.2.1 hnum
  have hendP : skipWsF (f + 5) Y10 = some ('}' :: Y11) :=
    skipWsF_clean (f + 4) _ _
      (by rw [hY10, skipSpaces_ws '\n' _ (by decide), skipSpaces_nSpaces,
        skipSpaces_stop '}' _ (by decide)])
      (head_ne_slash (by decide) _)
  have hI4 : parseMembers (f + 6) ('"' :: Y8b) [("interface", Json.str s1)]
      = some (Json.obj [("interface", Json.str s1), ("port", Json.num (n : Int))], Y11) :=
    parseMembers_last (f + 5) _ _ _ _ _ _ _ _ hkeyP hcolonP hvalP hendP
  have hval3 : parseVal (f + 9) (' ' :: Y3)
      = some (Json.obj [("interface", Json.str s1), ("port", Json.num (n : Int))], Y11) :=
    hI1.trans (hI2.trans (hI3.trans hI4))
  -- sequencing from the "network" member to the "database_path" member
  have hcomma3 : skipWsF (f + 9) Y11 = some (',' :: ('\n' :: (nSpaces 2 ++ ('"' :: Y12b)))) :=
    skipWsF_clean (f + 8) _ _
      (by rw [hY11, skipSpaces_stop ',' _ (by decide)])
      (head_ne_slash (by decide) _)
  have hnext3 : skipWsF (f + 9) ('\n' :: (nSpaces 2 ++ ('"' :: Y12b))) = some ('"' :: Y12b) :=
    skipWsF_clean (f + 8) _ _
      (by rw [skipSpaces_ws '\n' _ (by decide), skipSpaces_nSpaces,
        skipSpaces_stop '"' _ (by decide)])
      (head_ne_slash (by decide) _)
  have h3 : parseMembers (f + 10) ('"' :: Y2b) []
      = parseMembers (f + 9) ('"' :: Y12b)
          [("network", Json.obj [("interface", Json.str s1), ("port", Json.num (n : Int))])] :=
    parseMembers_more (f + 9) _ _ _ _ _ _ _ _ _ hkey3 hcolon3 hval3 hcomma3 hnext3
  -- the "database_path" member
  have hkeyD : parseStrBody Y12b = some ("database_path".data, ':' :: ' ' :: Y13) := by
    rw [hY12b]
    exact parseStrBody_escStr _ _
  have hcolonD : skipWsF (f + 8) (':' :: ' ' :: Y13) = some (':' :: ' ' :: Y13) :=
    skipWsF_clean (f + 7) _ _ (skipSpaces_stop ':' _ (by decide)) (head_ne_slash (by decide) _)
  have hwsD : skipWsF (f + 7) (' ' :: Y13) = some ('"' :: (escStr s2.data ++ ('"' :: Y14))) :=
    skipWsF_clean (f + 6) _ _
      (by rw [skipSpaces_ws ' ' _ (by decide), hY13, skipSpaces_stop '"' _ (by decide)])
      (head_ne_slash (by decide) _)
  have hvalD : parseVal (f + 8) (' ' :: Y13) = some (Json.str s2, Y14) :=
    parseVal_str (f + 7) _ _ _ _ hwsD (parseStrBody_escStr _ _)
  have hendD : skipWsF (f + 8) Y14 = some ('}' :: []) :=
    skipWsF_clean (f + 7) _ _
      (by rw [hY14, skipSpaces_ws '\n' _ (by decide), skipSpaces_stop '}' _ (by decide)])
      (head_ne_slash (by decide) _)
  have h4 : parseMembers (f + 9) ('"' :: Y12b)
        [("network", Json.obj [("interface", Json.str s1), ("port", Json.num (n : Int))])]
      = some (Json.obj [("network",
          Json.obj [("interface", Json.str s1), ("port", Json.num (n : Int))]),
          ("database_path", Json.str s2)], []) :=
    parseMembers_last (f + 8) _ _ _ _ _ _ _ _ hkeyD hcolonD hvalD hendD
  exact h1.trans (h2.trans (h3.trans h4))

/-- Parsing the full rendered text as a document yields the `Config`'s JSON
value. -/
theorem parseJsonText_renderConfig (c : Config) :
    parseJsonText (renderConfig c) = some (configToJson c) := by
  rw [parseJsonText]
  have hfuel : (renderConfig c).length + 16 = (renderConfig c).length + 4 + 12 := by omega
  rw [hfuel, parse_renderConfig c ((renderConfig c).length + 4)]
  simp [skipWsF, skipSpaces]

/-- The derived deserializer recovers a `Config` from its own JSON value
(the `u16` bound is the one the Rust type enforces). -/
theorem configFromJson_configToJson (c : Config) (h : c.network.port < 65536) :
    configFromJson (configToJson c) = some c := by
  obtain ⟨⟨s1, n⟩, s2⟩ := c
  dsimp only at h
  have hn1 : (0 : Int) ≤ (n : Int) := Int.natCast_nonneg n
  have hn2 : (n : Int) < 65536 := by exact_mod_cast h
  have hif : interfaceFromJson (Json.obj [("interface", Json.str s1), ("port", Json.num (n : Int))])
      = some { interface := s1, port := n } := by
    rw [interfaceFromJson]
    rw [if_pos (⟨rfl, rfl⟩ :
      countKey [("interface", Json.str s1), ("port", Json.num (n : Int))] "interface" = 1
      ∧ countKey [("interface", Json.str s1), ("port", Json.num (n : Int))] "port" = 1)]
    rw [show getField [("interface", Json.str s1), ("port", Json.num (n : Int))] "interface"
        = some (Json.str s1) from rfl]
    rw [Option.some_bind]
    rw [show getField [("interface", Json.str s1), ("port", Json.num (n : Int))] "port"
        = some (Json.num (n : Int)) from rfl]
    rw [Option.some_bind]
    rw [show asStr (Json.str s1) = some s1 from rfl]
    rw [Option.some_bind]
    rw [show asU16 (Json.num (n : Int))
        = if 0 ≤ (n : Int) ∧ (n : Int) < 65536 then some (n : Int).toNat else none from rfl]
    rw [if_pos ⟨hn1, hn2⟩]
    rw [Option.some_bind]
    rw [Int.toNat_natCast]
  rw [show configToJson ⟨⟨s1, n⟩, s2⟩
      = Json.obj [("network", Json.obj [("interface", Json.str s1), ("port", Json.num (n : Int))]),
          ("database_path", Json.str s2)] from rfl]
  rw [configFromJson]
  rw [if_pos (⟨rfl, rfl⟩ :
    countKey [("network", Json.obj [("interface", Json.str s1), ("port", Json.num (n : Int))]),
      ("database_path", Json.str s2)] "network" = 1
    ∧ countKey [("network", Json.obj [("interface", Json.str s1), ("port", Json.num (n : Int))]),
      ("database_path", Json.str s2)] "database_path" = 1)]
  rw [show getField [("network", Json.obj [("interface", Json.str s1), ("port", Json.num (n : Int))]),
      ("database_path", Json.str s2)] "network"
      = some (Json.obj [("interface", Json.str s1), ("port", Json.num (n : Int))]) from rfl]
  rw [Option.some_bind]
  rw [show getField [("network", Json.obj [("interface", Json.str s1), ("port", Json.num (n : Int))]),
      ("database_path", Json.str s2)] "database_path"
      = some (Json.str s2) from rfl]
  rw [Option.some_bind]
  rw [hif]
  rw [Option.some_bind]
  rw [show asStr (Json.str s2) = some s2 from rfl]
  rw [Option.some_bind]

/-- Round trip: serializing a `Config` and parsing the text back yields an
equal value. -/
theorem parse_render_roundtrip (c : Config) (h : c.network.port < 65536) :
    parseConfigText (renderConfig c) = some c := by
  rw [parseConfigText, parseJsonText_renderConfig, Option.some_bind]
  exact configFromJson_configToJson c h

/-! ## Filesystem helper lemmas for `load_config` -/

theorem pathExists_writeFileAt (fs : FS) (p : List String) (cnt : List Char) :
    pathExists (writeFileAt fs p cnt) p = true := by
  simp [pathExists, writeFileAt]

theorem fileContent_writeFileAt (fs : FS) (p : List String) (cnt : List Char) :
    fileContent (writeFileAt fs p cnt) p = some cnt := by
  simp [fileContent, writeFileAt, List.find?]

theorem pathExists_of_fileContent (fs : FS) (p : List String) (cnt : List Char)
    (h : fileContent fs p = some cnt) : pathExists fs p = true := by
  rw [fileContent] at h
  rcases hf : fs.files.find? (fun e => e.1 == p) with _ | e
  · rw [hf] at h
    simp at h
  · have hmem := List.mem_of_find?_eq_some hf
    have hpred := List.find?_some hf
    rw [pathExists, Bool.or_eq_true, List.any_eq_true]
    exact Or.inl ⟨e, hmem, hpred⟩

/-- On an existing file, `load_config` reads it and parses; the outcome is
fully determined by the content. -/
theorem load_config_read (fs : FS) (p : List String) (cnt : List Char)
    (hfc : fileContent fs p = some cnt) :
    load_config fs p = (match parseConfigText cnt with
      | some c => (LoadResult.ok c, fs, [LoadEvent.readFile])
      | none => (LoadResult.panic PanicKind.parseFailed, fs, [LoadEvent.readFile])) := by
  have hpe := pathExists_of_fileContent fs p cnt hfc
  rw [load_config, if_neg (by simp [hpe]), hfc]

/-- The first-run branch of `load_config`: state and trace. -/
theorem load_config_create (fs : FS) (p : List String)
    (h : pathExists fs p = false) :
    load_config fs p =
      (LoadResult.ok Config.default,
       writeFileAt
         (if dirExists fs p.dropLast = false then createDirAll fs p.dropLast else fs)
         p (renderConfig Config.default),
       (if dirExists fs p.dropLast = false then [LoadEvent.createDirs] else [])
         ++ [LoadEvent.wroteFile]) := by
  rw [load_config, if_pos h]
  by_cases hd : dirExists fs p.dropLast = false
  · rw [if_pos hd, if_pos hd, if_pos hd]
  · rw [if_neg hd, if_neg hd, if_neg hd]

/-! ## Claims about `load_config` -/

/-- C1: for every path at which no file exists, `load_config` returns the
documented defaults (`interface = "0.0.0.0"`, `port = 3250`,
`database_path = "database.db"`), afterwards the file exists at that path,
and a second load of the unedited file returns an equal model. -/
theorem c1_default_materialization (fs : FS) (p : List String)
    (h : pathExists fs p = false) :
    (load_config fs p).1 = LoadResult.ok Config.default
    ∧ Config.default
        = { network := { interface := "0.0.0.0", port := 3250 },
            database_path := "database.db" }
    ∧ pathExists (load_config fs p).2.1 p = true
    ∧ (load_config (load_config fs p).2.1 p).1 = LoadResult.ok Config.default := by
  rw [load_config_create fs p h]
  refine ⟨rfl, rfl, pathExists_writeFileAt _ _ _, ?_⟩
  rw [load_config_read _ _ _ (fileContent_writeFileAt _ _ _)]
  rw [parse_render_roundtrip Config.default (by decide)]

theorem c1_witness :
    pathExists { files := [], dirs := [] } ["config.json"] = false
    ∧ ((load_config { files := [], dirs := [] } ["config.json"]).1
          = LoadResult.ok Config.default
      ∧ Config.default
          = { network := { interface := "0.0.0.0", port := 3250 },
              database_path := "database.db" }
      ∧ pathExists (load_config { files := [], dirs := [] } ["config.json"]).2.1
          ["config.json"] = true
      ∧ (load_config (load_config { files := [], dirs := [] } ["config.json"]).2.1
            ["config.json"]).1 = LoadResult.ok Config.default) :=
  ⟨by decide, c1_default_materialization { files := [], dirs := [] } ["config.json"] (by decide)⟩

/-- C4: serializing any `Config` value to the structured-text format and
parsing the resulting text yields an equal value, field for field (the
port bound is the `u16` range the Rust type enforces). -/
theorem c4_roundtrip (c : Config) (h : c.network.port < 65536) :
    parseConfigText (renderConfig c) = some c :=
  parse_render_roundtrip c h

theorem c4_witness :
    Config.default.network.port < 65536
    ∧ parseConfigText (renderConfig Config.default) = some Config.default :=
  ⟨by decide, c4_roundtrip Config.default (by decide)⟩

/-- C5: on every path at which a file exists, `load_config` performs no
filesystem write: the filesystem (hence the file's content) is unchanged
and the only side effect is the read, including when the content fails to
parse, in which case the load panics with a parse failure instead of
overwriting the file. -/
theorem c5_no_overwrite (fs : FS) (p : List String)
    (h : pathExists fs p = true) :
    (load_config fs p).2.1 = fs
    ∧ (load_config fs p).2.2 = [LoadEvent.readFile]
    ∧ (∀ cnt, fileContent fs p = some cnt → parseConfigText cnt = none →
        (load_config fs p).1 = LoadResult.panic PanicKind.parseFailed) := by
  rcases hfc : fileContent fs p with _ | cnt
  · rw [load_config, if_neg (by simp [h]), hfc]
    exact ⟨rfl, rfl, fun cnt2 hcnt2 _ => by simp at hcnt2⟩
  · rw [load_config_read fs p cnt hfc]
    rcases hp : parseConfigText cnt with _ | c0
    · exact ⟨rfl, rfl, fun cnt2 hcnt2 _ => rfl⟩
    · refine ⟨rfl, rfl, fun cnt2 hcnt2 hnone => ?_⟩
      have he : cnt = cnt2 := by injection hcnt2
      subst he
      rw [hp] at hnone
      cases hnone

theorem c5_witness :
    pathExists fsBad ["config.json"] = true
    ∧ ((load_config fsBad ["config.json"]).2.1 = fsBad
      ∧ (load_config fsBad ["config.json"]).2.2 = [LoadEvent.readFile]
      ∧ (∀ cnt, fileContent fsBad ["config.json"] = some cnt →
          parseConfigText cnt = none →
          (load_config fsBad ["config.json"]).1
            = LoadResult.panic PanicKind.parseFailed)) :=
  ⟨by decide, c5_no_overwrite fsBad ["config.json"] (by decide)⟩

/-- C2 counterexample: the claim says every failure is surfaced as a
recoverable typed value and no component terminates the process, but
`load_config` on the spec's own malformed file panics (the model's
process-termination outcome) instead of returning a failure value. -/
theorem c2_counterexample :
    (load_config fsBad ["config.json"]).1 = LoadResult.panic PanicKind.parseFailed := by
  decide

/-- C2 (amended): `Db::from_path` surfaces its reachable failure as a typed
`Except` value (empty path gives `PreconditionError` with no side effect),
and neither component retries, but every `load_config` failure — here any
unparseable existing file — terminates the process via `panic!` rather than
returning a typed failure. -/
theorem c2_amended (cfs : FS) (p : List String) (t : List Char) (dfs : DbFS)
    (h1 : fileContent cfs p = some t) (h2 : parseConfigText t = none) :
    (load_config cfs p).1 = LoadResult.panic PanicKind.parseFailed
    ∧ Db.from_path dfs "" = (Except.error DbError.preconditionError, dfs, []) := by
  constructor
  · rw [load_config_read cfs p t h1, h2]
  · rw [Db.from_path, if_pos rfl]

theorem c2_amended_witness :
    fileContent fsBad ["config.json"] = some badContent
    ∧ parseConfigText badContent = none
    ∧ ((load_config fsBad ["config.json"]).1 = LoadResult.panic PanicKind.parseFailed
      ∧ Db.from_path ({ files := [] } : DbFS) ""
          = (Except.error DbError.preconditionError, { files := [] }, [])) :=
  ⟨rfl, rfl, c2_amended fsBad ["config.json"] badContent { files := [] } rfl rfl⟩

/-! ## Claims about `Db::from_path` -/

/-- C3: opening the store with the empty path fails with the typed
precondition error, leaves the store filesystem unchanged, and performs no
side effect at all (no file creation, no connection, no script). -/
theorem c3_empty_path (fs : DbFS) :
    Db.from_path fs "" = (Except.error DbError.preconditionError, fs, []) := by
  rw [Db.from_path, if_pos rfl]

theorem from_path_nonempty (fs : DbFS) (p : String) (hp : ¬p = "") :
    Db.from_path fs p =
      (Except.ok
        { conn := runInitScript (dbFileAt
            (if dbPathExists fs p = false then dbWrite fs p { schema := [] } else fs) p) },
       dbWrite (if dbPathExists fs p = false then dbWrite fs p { schema := [] } else fs) p
         (runInitScript (dbFileAt
            (if dbPathExists fs p = false then dbWrite fs p { schema := [] } else fs) p)),
       (if dbPathExists fs p = false then [DbEvent.fileCreate] else [])
         ++ [DbEvent.connOpen, DbEvent.execScript]) := by
  rw [Db.from_path, if_neg hp]
  by_cases h : dbPathExists fs p = false
  · rw [if_pos h, if_pos h, if_pos h]
  · rw [if_neg h, if_neg h, if_neg h]

/-- C7: on a fresh path the bootstrap first creates the file, then opens the
connection, then runs the initialization script, in that order; on an
existing path no file creation occurs. -/
theorem c7_bootstrap_order (fs : DbFS) (p : String) (hp : ¬p = "") :
    (dbPathExists fs p = false →
      (Db.from_path fs p).2.2 = [DbEvent.fileCreate, DbEvent.connOpen, DbEvent.execScript])
    ∧ (dbPathExists fs p = true →
      (Db.from_path fs p).2.2 = [DbEvent.connOpen, DbEvent.execScript]) := by
  rw [from_path_nonempty fs p hp]
  constructor
  · intro h
    simp [h]
  · intro h
    simp [h]

theorem c7_witness :
    ¬"database.db" = ""
    ∧ (Db.from_path ({ files := [] } : DbFS) "database.db").2.2
        = [DbEvent.fileCreate, DbEvent.connOpen, DbEvent.execScript] :=
  ⟨by decide, (c7_bootstrap_order { files := [] } "database.db" (by decide)).1 rfl⟩

/-! ## Claim C8: recursive directory creation -/

/-- C8: on a coherent filesystem, for every path at which no file exists
and whose parent directories do not all exist, `load_config` creates every
missing ancestor directory recursively before writing the default file, and
succeeds. -/
theorem c8_directory_creation (fs : FS) (p : List String)
    (hclosed : DirClosed fs)
    (h : pathExists fs p = false)
    (hmiss : ∃ q ∈ ancestors p.dropLast, dirExists fs q = false) :
    (load_config fs p).1 = LoadResult.ok Config.default
    ∧ (∀ q ∈ ancestors p.dropLast, dirExists (load_config fs p).2.1 q = true)
    ∧ pathExists (load_config fs p).2.1 p = true
    ∧ (load_config fs p).2.2 = [LoadEvent.createDirs, LoadEvent.wroteFile] := by
  have hpar : dirExists fs p.dropLast = false := by
    cases hde : dirExists fs p.dropLast
    · rfl
    · exfalso
      obtain ⟨q, hqmem, hqfalse⟩ := hmiss
      rw [dirExists, Bool.or_eq_true] at hde
      rcases hde with hde | hde
      · have hnil : p.dropLast = [] := by simpa using hde
        rw [hnil] at hqmem
        simp [ancestors] at hqmem
      · have hq := hclosed p.dropLast hde q hqmem
        rw [dirExists] at hqfalse
        simp [hq] at hqfalse
        exact hqfalse.2 (List.mem_of_elem_eq_true hq)
  rw [load_config_create fs p h, if_pos hpar, if_pos hpar]
  refine ⟨rfl, ?_, pathExists_writeFileAt _ _ _, rfl⟩
  intro q hq
  have hmem : q ∈ ancestors p.dropLast ++ fs.dirs := List.mem_append_left _ hq
  simp only [dirExists, writeFileAt, createDirAll, Bool.or_eq_true]
  right
  exact List.elem_eq_true_of_mem hmem

theorem c8_witness :
    DirClosed { files := [], dirs := [] }
    ∧ pathExists { files := [], dirs := [] } ["cfg", "app.json"] = false
    ∧ (∃ q ∈ ancestors (["cfg", "app.json"] : List String).dropLast,
        dirExists { files := [], dirs := [] } q = false)
    ∧ ((load_config { files := [], dirs := [] } ["cfg", "app.json"]).1
          = LoadResult.ok Config.default
      ∧ (∀ q ∈ ancestors (["cfg", "app.json"] : List String).dropLast,
          dirExists (load_config { files := [], dirs := [] } ["cfg", "app.json"]).2.1 q = true)
      ∧ pathExists (load_config { files := [], dirs := [] } ["cfg", "app.json"]).2.1
          ["cfg", "app.json"] = true
      ∧ (load_config { files := [], dirs := [] } ["cfg", "app.json"]).2.2
          = [LoadEvent.createDirs, LoadEvent.wroteFile]) :=
  ⟨fun d hd => by simp [List.contains] at hd,
   by decide,
   ⟨["cfg"], by decide, by decide⟩,
   c8_directory_creation { files := [], dirs := [] } ["cfg", "app.json"]
     (fun d hd => by simp [List.contains] at hd)
     (by decide)
     ⟨["cfg"], by decide, by decide⟩⟩

/-! ## Claim C6: store schema after bootstrap -/

theorem dbFileAt_dbWrite (fs : DbFS) (p : String) (d : DbFile) :
    dbFileAt (dbWrite fs p d) p = d := by
  simp [dbFileAt, dbWrite, List.find?]

theorem dbPathExists_dbWrite (fs : DbFS) (p : String) (d : DbFile) :
    dbPathExists (dbWrite fs p d) p = true := by
  simp [dbPathExists, dbWrite]

theorem dbWrite_dbWrite (fs : DbFS) (p : String) (d d2 : DbFile) :
    dbWrite (dbWrite fs p d) p d2 = dbWrite fs p d2 := by
  simp [dbWrite, List.filter_filter]

theorem runInitScript_has_users (d : DbFile) :
    (runInitScript d).schema.any (fun t => t.name == "users") = true := by
  rw [runInitScript]
  by_cases h : d.schema.any (fun t => t.name == "users") = true
  · rw [if_pos h]
    exact h
  · rw [if_neg h]
    simp [List.any_append, usersTable]

theorem runInitScript_idem (d : DbFile) :
    runInitScript (runInitScript d) = runInitScript d := by
  rw [runInitScript]
  rw [if_pos (runInitScript_has_users d)]

theorem runInitScript_users_mem (d : DbFile) :
    ∃ cols, Table.mk "users" cols ∈ (runInitScript d).schema := by
  rw [runInitScript]
  by_cases h : d.schema.any (fun t => t.name == "users") = true
  · rw [if_pos h]
    obtain ⟨t, htmem, htname⟩ := List.any_eq_true.mp h
    refine ⟨t.cols, ?_⟩
    have ht : Table.mk "users" t.cols = t := by
      cases t with
      | mk nm cols =>
        simp only [beq_iff_eq] at htname
        rw [htname]
    rw [ht]
    exact htmem
  · rw [if_neg h]
    exact ⟨usersTable.cols, by simp [usersTable]⟩

theorem usersTable_mem_runInitScript (d : DbFile)
    (h : d.schema.any (fun t => t.name == "users") = false) :
    usersTable ∈ (runInitScript d).schema := by
  rw [runInitScript, if_neg (by simp [h])]
  simp

/-- C6 counterexample: the claim promises the users table with the four
declared columns after every successful open, including on pre-existing
files; a pre-existing database whose `users` table has different columns
opens successfully, yet the declared table is absent (`CREATE TABLE IF NOT
EXISTS` leaves the divergent table alone). -/
theorem c6_counterexample :
    ∃ d : Db, (Db.from_path divergentDbFS "d.db").1 = Except.ok d
      ∧ usersTable ∉ d.conn.schema :=
  ⟨{ conn := { schema := [{ name := "users", cols := ["other"] }] } },
   rfl, by decide⟩

/-- C6 (amended): after every successful open a table named `users` exists;
whenever no table named `users` pre-existed at the path (in particular when
the file is newly created) it is exactly the declared table with columns
`username`, `password_hash`, `salt`, `permissions`; a second open of the
same path also succeeds, yields a handle with identical schema, and changes
nothing (no destructive change). -/
theorem c6_amended (fs : DbFS) (p : String) (hp : ¬p = "") :
    ∃ d : Db, (Db.from_path fs p).1 = Except.ok d
    ∧ (∃ cols, Table.mk "users" cols ∈ d.conn.schema)
    ∧ ((dbFileAt fs p).schema.any (fun t => t.name == "users") = false →
        usersTable ∈ d.conn.schema)
    ∧ (Db.from_path (Db.from_path fs p).2.1 p).1 = Except.ok d
    ∧ (Db.from_path (Db.from_path fs p).2.1 p).2.1 = (Db.from_path fs p).2.1 := by
  rw [from_path_nonempty fs p hp]
  by_cases hex : dbPathExists fs p = false
  · rw [if_pos hex, if_pos hex, dbFileAt_dbWrite]
    refine ⟨{ conn := runInitScript { schema := [] } }, rfl,
      runInitScript_users_mem _, fun _ => usersTable_mem_runInitScript _ rfl, ?_, ?_⟩
    · show (Db.from_path (dbWrite (dbWrite fs p { schema := [] }) p
          (runInitScript { schema := [] })) p).1
        = Except.ok { conn := runInitScript { schema := [] } }
      rw [from_path_nonempty _ p hp,
        if_neg (by simp [dbPathExists_dbWrite]), dbFileAt_dbWrite, runInitScript_idem]
    · show (Db.from_path (dbWrite (dbWrite fs p { schema := [] }) p
          (runInitScript { schema := [] })) p).2.1
        = dbWrite (dbWrite fs p { schema := [] }) p (runInitScript { schema := [] })
      rw [from_path_nonempty _ p hp,
        if_neg (by simp [dbPathExists_dbWrite]), dbFileAt_dbWrite, runInitScript_idem]
      show dbWrite (dbWrite (dbWrite fs p { schema := [] }) p (runInitScript { schema := [] }))
          p (runInitScript { schema := [] })
        = dbWrite (dbWrite fs p { schema := [] }) p (runInitScript { schema := [] })
      rw [dbWrite_dbWrite]
  · rw [if_neg hex, if_neg hex]
    refine ⟨{ conn := runInitScript (dbFileAt fs p) }, rfl,
      runInitScript_users_mem _, fun hn => usersTable_mem_runInitScript _ hn, ?_, ?_⟩
    · show (Db.from_path (dbWrite fs p (runInitScript (dbFileAt fs p))) p).1
        = Except.ok { conn := runInitScript (dbFileAt fs p) }
      rw [from_path_nonempty _ p hp,
        if_neg (by simp [dbPathExists_dbWrite]), dbFileAt_dbWrite, runInitScript_idem]
    · show (Db.from_path (dbWrite fs p (runInitScript (dbFileAt fs p))) p).2.1
        = dbWrite fs p (runInitScript (dbFileAt fs p))
      rw [from_path_nonempty _ p hp,
        if_neg (by simp [dbPathExists_dbWrite]), dbFileAt_dbWrite, runInitScript_idem]
      show dbWrite (dbWrite fs p (runInitScript (dbFileAt fs p))) p
          (runInitScript (dbFileAt fs p))
        = dbWrite fs p (runInitScript (dbFileAt fs p))
      rw [dbWrite_dbWrite]

theorem c6_witness :
    ¬"database.db" = ""
    ∧ (∃ d : Db, (Db.from_path ({ files := [] } : DbFS) "database.db").1 = Except.ok d
      ∧ (∃ cols, Table.mk "users" cols ∈ d.conn.schema)
      ∧ ((dbFileAt { files := [] } "database.db").schema.any
            (fun t => t.name == "users") = false →
          usersTable ∈ d.conn.schema)
      ∧ (Db.from_path (Db.from_path ({ files := [] } : DbFS) "database.db").2.1
            "database.db").1 = Except.ok d
      ∧ (Db.from_path (Db.from_path ({ files := [] } : DbFS) "database.db").2.1
            "database.db").2.1
          = (Db.from_path ({ files := [] } : DbFS) "database.db").2.1) :=
  ⟨by decide, c6_amended { files := [] } "database.db" (by decide)⟩

/-! ## Claim C10: missing required fields are rejected, unknown fields
are tolerated -/

theorem countKey_append (l1 l2 : List (String × Json)) (k : String) :
    countKey (l1 ++ l2) k = countKey l1 k + countKey l2 k := by
  simp [countKey, List.filter_append]

theorem countKey_single_ne (k2 : String) (v : Json) (k : String) (h : ¬k2 = k) :
    countKey [(k2, v)] k = 0 := by
  have hbeq : (k2 == k) = false := by simp [h]
  simp [countKey, List.filter, hbeq]

theorem getField_append_left (l1 l2 : List (String × Json)) (k : String) (v : Json)
    (h : getField l1 k = some v) : getField (l1 ++ l2) k = some v := by
  rw [getField] at h ⊢
  rw [List.find?_append]
  rcases hf : l1.find? (fun e => e.1 == k) with _ | e
  · rw [hf] at h
    simp at h
  · rw [hf] at h ⊢
    simpa using h

theorem getField_isSome_of_countKey (l : List (String × Json)) (k : String)
    (h : countKey l k = 1) : ∃ v, getField l k = some v := by
  rcases hf : l.find? (fun e => e.1 == k) with _ | e
  · exfalso
    rw [countKey] at h
    have hnil : l.filter (fun e => e.1 == k) = [] := by
      rw [List.filter_eq_nil_iff]
      intro a ha
      have := List.find?_eq_none.mp hf a ha
      simpa using this
    rw [hnil] at h
    simp at h
  · exact ⟨e.2, by rw [getField, hf]; rfl⟩

theorem configFromJson_missing (fields : List (String × Json))
    (hmiss : countKey fields "network" = 0 ∨ countKey fields "database_path" = 0
      ∨ (∃ nf, getField fields "network" = some (Json.obj nf)
          ∧ (countKey nf "interface" = 0 ∨ countKey nf "port" = 0))) :
    configFromJson (Json.obj fields) = none := by
  rw [configFromJson]
  by_cases hcond : countKey fields "network" = 1 ∧ countKey fields "database_path" = 1
  · rw [if_pos hcond]
    rcases hmiss with hm | hm | hm
    · exfalso
      have := hcond.1
      omega
    · exfalso
      have := hcond.2
      omega
    · obtain ⟨nf, hnf, hmf⟩ := hm
      rw [hnf, Option.some_bind]
      obtain ⟨dv, hdv⟩ := getField_isSome_of_countKey fields "database_path" hcond.2
      rw [hdv, Option.some_bind]
      have hnone : interfaceFromJson (Json.obj nf) = none := by
        rw [interfaceFromJson, if_neg]
        rintro ⟨h1, h2⟩
        rcases hmf with hm2 | hm2 <;> omega
      rw [hnone, Option.none_bind]
  · rw [if_neg hcond]

theorem configFromJson_append_unknown (fields : List (String × Json)) (k : String)
    (v : Json) (c : Config) (hk1 : ¬k = "network") (hk2 : ¬k = "database_path")
    (h : configFromJson (Json.obj fields) = some c) :
    configFromJson (Json.obj (fields ++ [(k, v)])) = some c := by
  rw [configFromJson] at h ⊢
  by_cases hcond : countKey fields "network" = 1 ∧ countKey fields "database_path" = 1
  · rw [if_pos hcond] at h
    have hc1 : countKey (fields ++ [(k, v)]) "network" = 1 := by
      rw [countKey_append, countKey_single_ne k v _ hk1, hcond.1]
    have hc2 : countKey (fields ++ [(k, v)]) "database_path" = 1 := by
      rw [countKey_append, countKey_single_ne k v _ hk2, hcond.2]
    rw [if_pos ⟨hc1, hc2⟩]
    obtain ⟨nv, hnv⟩ := getField_isSome_of_countKey fields "network" hcond.1
    obtain ⟨dv, hdv⟩ := getField_isSome_of_countKey fields "database_path" hcond.2
    rw [hnv, hdv, Option.some_bind, Option.some_bind] at h
    rw [getField_append_left _ _ _ _ hnv, getField_append_left _ _ _ _ hdv,
      Option.some_bind, Option.some_bind]
    exact h
  · rw [if_neg hcond] at h
    simp at h

/-- C10: for an existing file whose content is valid JSON, a missing
required field (`network`, `database_path`, `network.interface` or
`network.port`) makes `load_config` fail with a parse panic rather than
default-filling; unknown fields do not by themselves cause failure
(appending one to a successfully deserialized object leaves the result
unchanged). -/
theorem c10_missing_and_unknown_fields (fs : FS) (p : List String) (t : List Char)
    (fields : List (String × Json))
    (hfile : fileContent fs p = some t)
    (hparse : parseJsonText t = some (Json.obj fields)) :
    ((countKey fields "network" = 0 ∨ countKey fields "database_path" = 0
      ∨ (∃ nf, getField fields "network" = some (Json.obj nf)
          ∧ (countKey nf "interface" = 0 ∨ countKey nf "port" = 0))) →
      (load_config fs p).1 = LoadResult.panic PanicKind.parseFailed)
    ∧ (∀ (k : String) (v : Json) (c : Config), ¬k = "network" → ¬k = "database_path" →
        configFromJson (Json.obj fields) = some c →
        configFromJson (Json.obj (fields ++ [(k, v)])) = some c) := by
  constructor
  · intro hmiss
    rw [load_config_read fs p t hfile]
    rw [show parseConfigText t = none from by
      rw [parseConfigText, hparse, Option.some_bind, configFromJson_missing fields hmiss]]
  · intro k v c hk1 hk2 h
    exact configFromJson_append_unknown fields k v c hk1 hk2 h

theorem c10_witness :
    fileContent fsMissing ["config.json"] = some missingContent
    ∧ parseJsonText missingContent
        = some (Json.obj [("network",
            Json.obj [("interface", Json.str "a"), ("port", Json.num 1)])])
    ∧ countKey [("network",
          Json.obj [("interface", Json.str "a"), ("port", Json.num 1)])] "database_path" = 0
    ∧ (load_config fsMissing ["config.json"]).1 = LoadResult.panic PanicKind.parseFailed :=
  ⟨rfl, rfl, rfl,
   (c10_missing_and_unknown_fields fsMissing ["config.json"] missingContent
      [("network", Json.obj [("interface", Json.str "a"), ("port", Json.num 1)])]
      rfl rfl).1 (Or.inr (Or.inl rfl))⟩


end Inkblot
